import Mathlib

/-!
Verification of the TicketBay notifier core (src/main.py) against its
natural-language specification.

The Python program is shallowly embedded:

* Python values reaching the parser are modelled by `PyVal`
  (None, strings, integers) with Python truthiness and `str()` rendering.
* A raw listing record (a dict) is modelled by `Raw`: one `Option PyVal`
  per key the program reads (`Option.none` = key absent).
* Code that can raise is modelled in `Except String`; a raised exception
  that no handler catches sets the `crashed` flag of the loop state.
* The filesystem, the HTTP transport and the relay delivery outcome are
  oracles passed in as explicit arguments.
-/

/-- A Python value as it can appear in a listing-record field:
`none` is Python `None`, `str` a string, `int` an integer. -/
inductive PyVal where
  | none
  | str (s : String)
  | int (n : Int)
deriving DecidableEq, Repr

/-- Python truthiness: `None` is falsy, a string is truthy iff nonempty,
an integer is truthy iff nonzero. -/
def pyTruthy : PyVal → Bool
  | PyVal.none => false
  | PyVal.str s => !(s == "")
  | PyVal.int n => !(n == 0)

/-- Python `str()` as used by f-string interpolation:
`str(None) = "None"`. -/
def pyStr : PyVal → String
  | PyVal.none => "None"
  | PyVal.str s => s
  | PyVal.int n => toString n

/-- `dict.get(key)`: `None` when the key is absent. -/
def pyGet (v : Option PyVal) : PyVal := v.getD PyVal.none

/-- `dict.get(key, default)`: the default applies only when the key is
absent, not when it is present with value `None`. -/
def pyGetD (v : Option PyVal) (d : PyVal) : PyVal := v.getD d

/-- Python `x or ''`: `x` if truthy, else the empty string. -/
def pyOrEmpty (v : PyVal) : PyVal := if pyTruthy v then v else PyVal.str ""

/-- Python `s.replace('T', ' ')`, only available on strings: calling it on
`None` (or an integer) raises `AttributeError`.  For the one-character
pattern this is a character map. -/
def pyReplaceTspace : PyVal → Except String String
  | PyVal.str s => Except.ok (String.mk (s.data.map (fun c => if c = 'T' then ' ' else c)))
  | _ => Except.error "AttributeError: replace"

/-- The string contents of a list of Python values, as demanded by
`' '.join`: the first non-string element raises `TypeError`. -/
def strList : List PyVal → Except String (List String)
  | [] => Except.ok []
  | v :: rest =>
    match v with
    | PyVal.str s =>
      match strList rest with
      | Except.ok l => Except.ok (s :: l)
      | Except.error e => Except.error e
    | _ => Except.error "TypeError: sequence item: expected str instance"

/-- Python `' '.join(parts)`. -/
def pyJoinSpace (l : List PyVal) : Except String String :=
  match strList l with
  | Except.ok strs => Except.ok (String.intercalate " " strs)
  | Except.error e => Except.error e

/-- One raw listing record: the keys `parse_item` reads from the upstream
payload dict.  `Option.none` models an absent key. -/
structure Raw where
  id : Option PyVal
  depth2_name : Option PyVal
  perform_date : Option PyVal
  floor : Option PyVal
  area : Option PyVal
  seat_number : Option PyVal
  grade : Option PyVal
  addinfo : Option PyVal
  price : Option PyVal
  category_id : Option PyVal
deriving DecidableEq, Repr

/-- The record with every key absent. -/
def emptyRaw : Raw :=
  { id := Option.none, depth2_name := Option.none, perform_date := Option.none,
    floor := Option.none, area := Option.none, seat_number := Option.none,
    grade := Option.none, addinfo := Option.none, price := Option.none,
    category_id := Option.none }

/-- The canonical ticket item returned by `parse_item`. -/
structure TicketItem where
  id : PyVal
  performName : PyVal
  performAt : String
  seatInfo : String
  price : PyVal
  link : String
deriving DecidableEq, Repr

/-- `parse_item` from src/main.py.  The `Except` layer records the
exceptions Python can raise here: `.replace` on a non-string
`perform_date`, and `' '.join` over a non-string truthy seat part. -/
def parse_item (raw : Raw) : Except String TicketItem :=
  let perform_name := pyGet raw.depth2_name
  match pyReplaceTspace (pyGetD raw.perform_date (PyVal.str "")) with
  | Except.error e => Except.error e
  | Except.ok perform_at =>
    let floor := pyGet raw.floor
    let area := pyGet raw.area
    let row := pyGet raw.seat_number
    let grade := pyGet raw.grade
    let _addinfo := pyOrEmpty (pyGet raw.addinfo)
    let seat_parts := [floor, PyVal.str (pyStr area ++ "구역"),
                       PyVal.str (pyStr row ++ "열"), grade].filter pyTruthy
    match pyJoinSpace seat_parts with
    | Except.error e => Except.error e
    | Except.ok seat_info =>
      let price := pyGet raw.price
      let category_id := pyGet raw.category_id
      let link := "https://www.ticketbay.co.kr/product/" ++ pyStr category_id ++ "/list/0"
      Except.ok
        { id := pyGet raw.id, performName := perform_name, performAt := perform_at,
          seatInfo := seat_info, price := price, link := link }

/-- The spec example with all four seat fields present. -/
def rawAllSeat : Raw :=
  { emptyRaw with floor := some (PyVal.str "3F"), area := some (PyVal.str "A"),
                  seat_number := some (PyVal.str "12"), grade := some (PyVal.str "R") }

/-- The spec example `floor=None, area=None, row="5", grade=None`. -/
def rawRowOnly : Raw :=
  { emptyRaw with floor := some PyVal.none, area := some PyVal.none,
                  seat_number := some (PyVal.str "5"), grade := some PyVal.none }

/-- A record whose `perform_date` key is present with value `None`. -/
def rawNullPerformDate : Raw := { emptyRaw with perform_date := some PyVal.none }

/-- C1: the all-present example gives "3F A구역 12열 R" as the claim says, but
the `floor=None, area=None, row="5", grade=None` example gives
"None구역 5열", not the claimed "5열": the f-strings around `area` and `row`
are built before the truthiness filter, so absent area/row render as the
literal text "None구역"/"None열" instead of being omitted. -/
theorem seat_info_examples :
    (∃ it, parse_item rawAllSeat = Except.ok it ∧ it.seatInfo = "3F A구역 12열 R") ∧
    (∃ it, parse_item rawRowOnly = Except.ok it ∧ it.seatInfo = "None구역 5열" ∧
           it.seatInfo ≠ "5열") := by
  constructor
  · exact ⟨_, rfl, rfl⟩
  · exact ⟨_, rfl, rfl, by decide⟩

/-- C2 counterexample: on a record whose `perform_date` key is present with
value `None`, `parse_item` raises (`dict.get`'s default does not apply to a
present null, and `None` has no `.replace`), so parse is not total on
records with null field values. -/
theorem parse_item_null_perform_date_raises :
    parse_item rawNullPerformDate = Except.error "AttributeError: replace" := rfl

/-- A value that is absent or a plain string, embedded into a record field. -/
def embedStr (v : Option String) : Option PyVal := v.map PyVal.str

/-- A value that is absent, null, or a plain string, embedded into a record
field. -/
def embedNullable (v : Option (Option String)) : Option PyVal :=
  v.map (fun o => o.elim PyVal.none PyVal.str)

lemma strList_ok (l : List PyVal) (h : ∀ v ∈ l, ∃ s, v = PyVal.str s) :
    ∃ out, strList l = Except.ok out := by
  induction l with
  | nil => exact ⟨[], rfl⟩
  | cons v rest ih =>
    obtain ⟨s, rfl⟩ := h v (List.mem_cons_self v rest)
    obtain ⟨out, hout⟩ := ih (fun w hw => h w (List.mem_cons_of_mem _ hw))
    exact ⟨s :: out, by simp [strList, hout]⟩

lemma pyJoinSpace_ok (l : List PyVal) (h : ∀ v ∈ l, ∃ s, v = PyVal.str s) :
    ∃ out, pyJoinSpace l = Except.ok out := by
  obtain ⟨sl, hsl⟩ := strList_ok l h
  exact ⟨String.intercalate " " sl, by simp [pyJoinSpace, hsl]⟩

lemma pyTruthy_none_false : pyTruthy PyVal.none = false := rfl

/-- C2 amended: `parse_item` returns a `TicketItem` without raising for
every record whose `perform_date` is absent or a string and whose `floor`
and `grade` are absent, null, or strings — the remaining fields may be
absent, null, strings or integers; and on the record with every key absent
it substitutes the `None`/empty defaults. -/
theorem parse_item_total_on_plain_records
    (pd : Option String) (fl gr : Option (Option String))
    (i d2 ar rw ai pr ci : Option PyVal) :
    (∃ it, parse_item
        { id := i, depth2_name := d2, perform_date := embedStr pd,
          floor := embedNullable fl, area := ar, seat_number := rw,
          grade := embedNullable gr, addinfo := ai, price := pr,
          category_id := ci } = Except.ok it) ∧
    parse_item emptyRaw = Except.ok
      { id := PyVal.none, performName := PyVal.none, performAt := "",
        seatInfo := "None구역 None열", price := PyVal.none,
        link := "https://www.ticketbay.co.kr/product/None/list/0" } := by
  refine ⟨?_, rfl⟩
  have hrep : ∃ pa, pyReplaceTspace (pyGetD (embedStr pd) (PyVal.str "")) = Except.ok pa := by
    cases pd with
    | none => exact ⟨"", rfl⟩
    | some s => exact ⟨_, rfl⟩
  obtain ⟨pa, hpa⟩ := hrep
  have hparts : ∀ v ∈ ([pyGet (embedNullable fl),
      PyVal.str (pyStr (pyGet ar) ++ "구역"),
      PyVal.str (pyStr (pyGet rw) ++ "열"),
      pyGet (embedNullable gr)].filter pyTruthy), ∃ s, v = PyVal.str s := by
    intro v hv
    have hv' := List.mem_filter.mp hv
    have hmem := hv'.1
    have htr := hv'.2
    simp only [List.mem_cons] at hmem
    rcases hmem with hfl | h2 | h3 | hgr | hnil
    · cases fl with
      | none =>
        rw [hfl] at htr
        simp [embedNullable, pyGet, pyTruthy] at htr
      | some o =>
        cases o with
        | none =>
          rw [hfl] at htr
          simp [embedNullable, pyGet, Option.elim, pyTruthy] at htr
        | some s => exact ⟨s, by rw [hfl]; simp [embedNullable, pyGet, Option.elim]⟩
    · exact ⟨_, h2⟩
    · exact ⟨_, h3⟩
    · cases gr with
      | none =>
        rw [hgr] at htr
        simp [embedNullable, pyGet, pyTruthy] at htr
      | some o =>
        cases o with
        | none =>
          rw [hgr] at htr
          simp [embedNullable, pyGet, Option.elim, pyTruthy] at htr
        | some s => exact ⟨s, by rw [hgr]; simp [embedNullable, pyGet, Option.elim]⟩
    · exact absurd hnil (List.not_mem_nil v)
  obtain ⟨out, hout⟩ := pyJoinSpace_ok _ hparts
  simp only [parse_item, hpa, hout]
  exact ⟨_, rfl⟩

/-- Contents of the identity-store file: either a valid pickle of a set of
ids, or bytes that `pickle.load` rejects. -/
inductive FileContents where
  | pickled (ids : List PyVal)
  | corrupt
deriving DecidableEq, Repr

/-- `load_seen_ids` from src/main.py over the filesystem oracle
(`Option.none` = no file at the path): missing file gives an empty set and
`first_run = true`; a valid pickle gives its set and `false`; any
deserialization failure is caught and gives an empty set and `false`. -/
def load_seen_ids : Option FileContents → List PyVal × Bool
  | Option.none => ([], true)
  | some (FileContents.pickled s) => (s, false)
  | some FileContents.corrupt => ([], false)

/-- `save_seen_ids` from src/main.py: on a successful write the file holds
the pickled set; a write failure is caught and logged (the file may be left
truncated, modelled as corrupt). -/
def save_seen_ids (writeOk : Bool) (s : List PyVal) (_fs : Option FileContents) :
    Option FileContents :=
  if writeOk then some (FileContents.pickled s) else some FileContents.corrupt

/-- C5: `load_seen_ids` returns (∅, firstRun=true) when no file exists,
(the stored set, false) when the file deserializes, and (∅, false) on a
file of invalid bytes, never raising. -/
theorem load_seen_ids_spec (s : List PyVal) :
    load_seen_ids Option.none = ([], true) ∧
    load_seen_ids (some (FileContents.pickled s)) = (s, false) ∧
    load_seen_ids (some FileContents.corrupt) = ([], false) :=
  ⟨rfl, rfl, rfl⟩

/-- C9: a successful `save_seen_ids` followed by `load_seen_ids` on the
same path yields exactly the saved set, with firstRun = false. -/
theorem save_load_round_trip (s : List PyVal) (fs : Option FileContents) :
    load_seen_ids (save_seen_ids true s fs) = (s, false) := rfl

/-- An embedded JSON value, the result of `json.loads`. -/
inductive JVal where
  | null
  | bool (b : Bool)
  | num (n : Int)
  | str (s : String)
  | arr (elems : List JVal)
  | obj (fields : List (String × JVal))

/-- Key lookup in a JSON object's field list. -/
def lookupField : List (String × JVal) → String → Option JVal
  | [], _ => Option.none
  | (k, v) :: rest, key => if k = key then some v else lookupField rest key

/-- Python `x.get(key, default)` on an arbitrary JSON value: only a dict
has `.get`; on anything else the call raises `AttributeError`. -/
def pyJGet (v : JVal) (key : String) (dflt : JVal) : Except String JVal :=
  match v with
  | JVal.obj fields => Except.ok ((lookupField fields key).getD dflt)
  | _ => Except.error "AttributeError: get"

/-- The empty Python dict used as the chain default. -/
def emptyObj : JVal := JVal.obj []

/-- The empty Python list used as the final default. -/
def emptyArr : JVal := JVal.arr []

/-- The walk `data.get('props', {}).get('pageProps', {})
.get('listServer', {}).get('content', [])` inside the `try` block. -/
def extractListings (data : JVal) : Except String JVal :=
  match pyJGet data "props" emptyObj with
  | Except.error e => Except.error e
  | Except.ok props =>
    match pyJGet props "pageProps" emptyObj with
    | Except.error e => Except.error e
    | Except.ok pageProps =>
      match pyJGet pageProps "listServer" emptyObj with
      | Except.error e => Except.error e
      | Except.ok listServer => pyJGet listServer "content" emptyArr

/-- One call's observable input to `fetch_ticket_listings`: the transport
and HTML/JSON layers are an oracle deciding which of the guarded failure
classes occurred, or handing over the parsed `__NEXT_DATA__` JSON. -/
inductive FetchInput where
  | transportFail
  | noScript
  | badJson
  | jsonData (data : JVal)

/-- `fetch_ticket_listings` from src/main.py: every failure class is caught
and turned into the empty list; on parsed JSON the nested walk runs inside
`try`, its own exceptions also caught to the empty list. -/
def fetch_ticket_listings (input : FetchInput) : JVal :=
  match input with
  | FetchInput.transportFail => emptyArr
  | FetchInput.noScript => emptyArr
  | FetchInput.badJson => emptyArr
  | FetchInput.jsonData d =>
    match extractListings d with
    | Except.ok listings => listings
    | Except.error _ => emptyArr

/-- C6: `fetch_ticket_listings` is total by construction and returns the
empty sequence on a transport failure, a missing `__NEXT_DATA__` script,
malformed JSON, and on a missing intermediate key at any level of
`props.pageProps.listServer.content`. -/
theorem fetch_failure_empty :
    fetch_ticket_listings FetchInput.transportFail = emptyArr ∧
    fetch_ticket_listings FetchInput.noScript = emptyArr ∧
    fetch_ticket_listings FetchInput.badJson = emptyArr ∧
    (∀ f0, lookupField f0 "props" = Option.none →
      fetch_ticket_listings (FetchInput.jsonData (JVal.obj f0)) = emptyArr) ∧
    (∀ f0 f1, lookupField f0 "props" = some (JVal.obj f1) →
      lookupField f1 "pageProps" = Option.none →
      fetch_ticket_listings (FetchInput.jsonData (JVal.obj f0)) = emptyArr) ∧
    (∀ f0 f1 f2, lookupField f0 "props" = some (JVal.obj f1) →
      lookupField f1 "pageProps" = some (JVal.obj f2) →
      lookupField f2 "listServer" = Option.none →
      fetch_ticket_listings (FetchInput.jsonData (JVal.obj f0)) = emptyArr) ∧
    (∀ f0 f1 f2 f3, lookupField f0 "props" = some (JVal.obj f1) →
      lookupField f1 "pageProps" = some (JVal.obj f2) →
      lookupField f2 "listServer" = some (JVal.obj f3) →
      lookupField f3 "content" = Option.none →
      fetch_ticket_listings (FetchInput.jsonData (JVal.obj f0)) = emptyArr) := by
  refine ⟨rfl, rfl, rfl, ?_, ?_, ?_, ?_⟩
  · intro f0 h0
    simp [fetch_ticket_listings, extractListings, pyJGet, lookupField, h0, emptyObj, emptyArr]
  · intro f0 f1 h0 h1
    simp [fetch_ticket_listings, extractListings, pyJGet, lookupField, h0, h1, emptyObj, emptyArr]
  · intro f0 f1 f2 h0 h1 h2
    simp [fetch_ticket_listings, extractListings, pyJGet, lookupField, h0, h1, h2, emptyObj, emptyArr]
  · intro f0 f1 f2 f3 h0 h1 h2 h3
    simp [fetch_ticket_listings, extractListings, pyJGet, lookupField, h0, h1, h2, h3, emptyObj, emptyArr]

/-- C6 witness: the failure branches and a concrete missing-key payload. -/
theorem fetch_failure_empty_witness :
    fetch_ticket_listings (FetchInput.jsonData (JVal.obj [])) = emptyArr ∧
    fetch_ticket_listings (FetchInput.jsonData
      (JVal.obj [("props", JVal.obj [])])) = emptyArr ∧
    fetch_ticket_listings (FetchInput.jsonData
      (JVal.obj [("props", JVal.obj [("pageProps", JVal.obj [])])])) = emptyArr ∧
    fetch_ticket_listings (FetchInput.jsonData
      (JVal.obj [("props", JVal.obj [("pageProps",
        JVal.obj [("listServer", JVal.obj [])])])])) = emptyArr :=
  ⟨fetch_failure_empty.2.2.2.1 [] rfl,
   fetch_failure_empty.2.2.2.2.1 _ [] rfl rfl,
   fetch_failure_empty.2.2.2.2.2.1 _ _ [] rfl rfl rfl,
   fetch_failure_empty.2.2.2.2.2.2 _ _ _ [] rfl rfl rfl rfl⟩

/-- The sleep computed at the end of each cycle:
`max(1, INTERVAL + random.uniform(-5, 5))`, over exact rationals. -/
def sleep_time (interval jitter : ℚ) : ℚ := max 1 (interval + jitter)

/-- C10: for every configured interval and any jitter in [-5, 5], the
computed sleep duration is at least 1 time unit. -/
theorem sleep_time_ge_one (interval jitter : ℚ)
    (h1 : -5 ≤ jitter) (h2 : jitter ≤ 5) :
    1 ≤ sleep_time interval jitter :=
  le_max_left 1 (interval + jitter)

/-- C10 witness: interval 60 with jitter -4.5. -/
theorem sleep_time_ge_one_witness :
    (-5 : ℚ) ≤ -9/2 ∧ (-9/2 : ℚ) ≤ 5 ∧ 1 ≤ sleep_time 60 (-9/2) :=
  ⟨by norm_num, by norm_num, sleep_time_ge_one 60 (-9/2) (by norm_num) (by norm_num)⟩

/-- The state of `main`'s monitoring loop, plus the observable traces a
run leaves behind: ids whose alert was attempted (`dispatched`), the
relay calls with their logged outcome (`sendLog`), the snapshots written
to the identity-store file (`writes`), and whether an uncaught exception
escaped the loop (`crashed`). -/
structure MainState where
  seen : List PyVal
  first_run : Bool
  dispatched : List PyVal
  sendLog : List (String × Bool)
  writes : List (List PyVal)
  crashed : Bool
deriving Repr

/-- The message template of `send_ngl_alert`. -/
def format_message (item : TicketItem) : String :=
  "🎫 공연: " ++ pyStr item.performName ++ "\n" ++
  "⏰ 일시: " ++ item.performAt ++ "\n" ++
  "💺 좌석: " ++ item.seatInfo ++ "\n" ++
  "💰 가격: " ++ pyStr item.price ++ "원\n"

/-- `send_ngl_alert` from src/main.py: posts the formatted message to the
relay; any transport failure is caught and logged, and the function
returns either way.  `deliver` is the transport oracle's outcome for this
call; the pair is what gets logged. -/
def send_ngl_alert (deliver : Bool) (item : TicketItem) : String × Bool :=
  (format_message item, deliver)

/-- The inner `for raw in listings` loop of `main`: parse, skip falsy or
already-seen ids, otherwise send the alert (with delivery outcome from
the oracle `deliver`), add the id to the seen set and flag the cycle.  A
parse exception is uncaught: it sets `crashed` and stops the run. -/
def stepRaws (deliver : PyVal → Bool) : MainState → Bool → List Raw → MainState × Bool
  | st, nf, [] => (st, nf)
  | st, nf, r :: rs =>
    match parse_item r with
    | Except.error _ => ({ st with crashed := true }, nf)
    | Except.ok item =>
      let tid := item.id
      if pyTruthy tid = false ∨ tid ∈ st.seen then
        stepRaws deliver st nf rs
      else
        stepRaws deliver
          { st with sendLog := st.sendLog ++ [send_ngl_alert (deliver tid) item],
                    seen := st.seen ++ [tid],
                    dispatched := st.dispatched ++ [tid] }
          true rs

/-- The `for page in range(MAX_PAGES)` loop of `main`, starting at `page`
with `remaining` iterations left: fetch the page (the oracle `pages`
gives each fetch's result for this cycle), break on an empty result,
otherwise process the listings and continue.  Returns the final state,
the `new_found` flag, and the pages fetched in order. -/
def scanFrom (deliver : PyVal → Bool) (pages : Nat → List Raw) :
    Nat → Nat → MainState → Bool → MainState × Bool × List Nat
  | 0, _, st, nf => (st, nf, [])
  | remaining + 1, page, st, nf =>
    if pages page = [] then (st, nf, [page])
    else
      let r := stepRaws deliver st nf (pages page)
      if r.1.crashed then (r.1, r.2, [page])
      else
        let q := scanFrom deliver pages remaining (page + 1) r.1 r.2
        (q.1, q.2.1, page :: q.2.2)

/-- One polling cycle of `main`: scan the pages from 0, then persist the
seen set if anything new was found or this is the very first cycle, and
clear the first-cycle flag.  A crash skips the save.  Also returns the
list of pages fetched. -/
def runCycle (deliver : PyVal → Bool) (maxPages : Nat) (pages : Nat → List Raw)
    (st : MainState) : MainState × List Nat :=
  let r := scanFrom deliver pages maxPages 0 st false
  if r.1.crashed then (r.1, r.2.2)
  else if r.2.1 || r.1.first_run then
    ({ r.1 with writes := r.1.writes ++ [r.1.seen], first_run := false }, r.2.2)
  else (r.1, r.2.2)

/-- A finite run of the `while True` loop: one cycle per element of
`cycles` (each element is that cycle's fetch oracle); a crashed state
stops the run. -/
def runCycles (deliver : PyVal → Bool) (maxPages : Nat) :
    List (Nat → List Raw) → MainState → MainState
  | [], st => st
  | p :: ps, st =>
    if st.crashed then st
    else runCycles deliver maxPages ps (runCycle deliver maxPages p st).1

/-- The loop state right after `load_seen_ids` at startup. -/
def initState (fs : Option FileContents) : MainState :=
  { seen := (load_seen_ids fs).1, first_run := (load_seen_ids fs).2,
    dispatched := [], sendLog := [], writes := [], crashed := false }

lemma stepRaws_spec (deliver : PyVal → Bool) (l : List Raw) :
    ∀ (st : MainState) (nf : Bool),
    ∃ t, (stepRaws deliver st nf l).1.seen = st.seen ++ t ∧
         (stepRaws deliver st nf l).1.dispatched = st.dispatched ++ t ∧
         (∀ i, i ∈ t → i ∉ st.seen) ∧
         (stepRaws deliver st nf l).2 = (nf || !t.isEmpty) ∧
         (stepRaws deliver st nf l).1.first_run = st.first_run ∧
         (stepRaws deliver st nf l).1.writes = st.writes := by
  induction l with
  | nil =>
    intro st nf
    exact ⟨[], by simp [stepRaws]⟩
  | cons r rs ih =>
    intro st nf
    rcases hpe : parse_item r with e | item
    · refine ⟨[], ?_⟩
      simp [stepRaws, hpe]
    · by_cases hc : pyTruthy item.id = false ∨ item.id ∈ st.seen
      · obtain ⟨t, h1, h2, h3, h4, h5, h6⟩ := ih st nf
        refine ⟨t, ?_, ?_, h3, ?_, ?_, ?_⟩ <;>
          simp only [stepRaws, hpe, if_pos hc] <;> assumption
      · obtain ⟨t, h1, h2, h3, h4, h5, h6⟩ :=
          ih { st with sendLog := st.sendLog ++ [send_ngl_alert (deliver item.id) item],
                       seen := st.seen ++ [item.id],
                       dispatched := st.dispatched ++ [item.id] } true
        have hid : item.id ∉ st.seen := fun hmem => hc (Or.inr hmem)
        refine ⟨item.id :: t, ?_, ?_, ?_, ?_, ?_, ?_⟩
        · simp only [stepRaws, hpe, if_neg hc]
          rw [h1]; simp
        · simp only [stepRaws, hpe, if_neg hc]
          rw [h2]; simp
        · intro i hi
          rcases List.mem_cons.mp hi with rfl | hit
          · exact hid
          · intro hin
            exact h3 i hit (by simp [hin])
        · simp only [stepRaws, hpe, if_neg hc]
          rw [h4]; simp
        · simp only [stepRaws, hpe, if_neg hc]
          rw [h5]
        · simp only [stepRaws, hpe, if_neg hc]
          rw [h6]

lemma not_isEmpty_append {α : Type} (a b : List α) :
    (!(a ++ b).isEmpty) = (!a.isEmpty || !b.isEmpty) := by
  cases a <;> cases b <;> simp

lemma scanFrom_spec (deliver : PyVal → Bool) (pages : Nat → List Raw) :
    ∀ (remaining page : Nat) (st : MainState) (nf : Bool),
    ∃ t, (scanFrom deliver pages remaining page st nf).1.seen = st.seen ++ t ∧
         (scanFrom deliver pages remaining page st nf).1.dispatched = st.dispatched ++ t ∧
         (∀ i, i ∈ t → i ∉ st.seen) ∧
         (scanFrom deliver pages remaining page st nf).2.1 = (nf || !t.isEmpty) ∧
         (scanFrom deliver pages remaining page st nf).1.first_run = st.first_run ∧
         (scanFrom deliver pages remaining page st nf).1.writes = st.writes := by
  intro remaining
  induction remaining with
  | zero =>
    intro page st nf
    exact ⟨[], by simp [scanFrom]⟩
  | succ m ih =>
    intro page st nf
    by_cases hemp : pages page = []
    · exact ⟨[], by simp [scanFrom, hemp]⟩
    · obtain ⟨t1, g1, g2, g3, g4, g5, g6⟩ := stepRaws_spec deliver (pages page) st nf
      by_cases hcr : (stepRaws deliver st nf (pages page)).1.crashed
      · refine ⟨t1, ?_, ?_, g3, ?_, ?_, ?_⟩ <;>
          simp only [scanFrom, if_neg hemp, if_pos hcr] <;> assumption
      · obtain ⟨t2, k1, k2, k3, k4, k5, k6⟩ :=
          ih (page + 1) (stepRaws deliver st nf (pages page)).1
             (stepRaws deliver st nf (pages page)).2
        refine ⟨t1 ++ t2, ?_, ?_, ?_, ?_, ?_, ?_⟩
        · simp only [scanFrom, if_neg hemp, if_neg hcr]
          rw [k1, g1, List.append_assoc]
        · simp only [scanFrom, if_neg hemp, if_neg hcr]
          rw [k2, g2, List.append_assoc]
        · intro i hi
          rcases List.mem_append.mp hi with hit | hit
          · exact g3 i hit
          · intro hin
            exact k3 i hit (by rw [g1]; exact List.mem_append.mpr (Or.inl hin))
        · simp only [scanFrom, if_neg hemp, if_neg hcr]
          rw [k4, g4, not_isEmpty_append, Bool.or_assoc]
        · simp only [scanFrom, if_neg hemp, if_neg hcr]
          rw [k5, g5]
        · simp only [scanFrom, if_neg hemp, if_neg hcr]
          rw [k6, g6]

lemma runCycle_proj (deliver : PyVal → Bool) (maxPages : Nat) (pages : Nat → List Raw)
    (st : MainState) :
    (runCycle deliver maxPages pages st).1.seen =
      (scanFrom deliver pages maxPages 0 st false).1.seen ∧
    (runCycle deliver maxPages pages st).1.dispatched =
      (scanFrom deliver pages maxPages 0 st false).1.dispatched ∧
    (runCycle deliver maxPages pages st).1.crashed =
      (scanFrom deliver pages maxPages 0 st false).1.crashed ∧
    (runCycle deliver maxPages pages st).2 =
      (scanFrom deliver pages maxPages 0 st false).2.2 := by
  refine ⟨?_, ?_, ?_, ?_⟩ <;>
    (simp only [runCycle]; split
     · rfl
     · split
       · simp
       · rfl)

lemma runCycle_spec (deliver : PyVal → Bool) (maxPages : Nat) (pages : Nat → List Raw)
    (st : MainState) :
    ∃ t, (runCycle deliver maxPages pages st).1.seen = st.seen ++ t ∧
         (runCycle deliver maxPages pages st).1.dispatched = st.dispatched ++ t ∧
         (∀ i, i ∈ t → i ∉ st.seen) := by
  obtain ⟨t, h1, h2, h3, _, _, _⟩ := scanFrom_spec deliver pages maxPages 0 st false
  obtain ⟨p1, p2, _, _⟩ := runCycle_proj deliver maxPages pages st
  exact ⟨t, by rw [p1, h1], by rw [p2, h2], h3⟩

lemma runCycles_spec (deliver : PyVal → Bool) (maxPages : Nat) :
    ∀ (cycles : List (Nat → List Raw)) (st : MainState),
    ∃ t, (runCycles deliver maxPages cycles st).seen = st.seen ++ t ∧
         (runCycles deliver maxPages cycles st).dispatched = st.dispatched ++ t ∧
         (∀ i, i ∈ t → i ∉ st.seen) := by
  intro cycles
  induction cycles with
  | nil =>
    intro st
    exact ⟨[], by simp [runCycles]⟩
  | cons p ps ih =>
    intro st
    by_cases hcr : st.crashed
    · exact ⟨[], by simp [runCycles, hcr]⟩
    · obtain ⟨t1, g1, g2, g3⟩ := runCycle_spec deliver maxPages p st
      obtain ⟨t2, k1, k2, k3⟩ := ih (runCycle deliver maxPages p st).1
      refine ⟨t1 ++ t2, ?_, ?_, ?_⟩
      · simp only [runCycles, if_neg hcr]
        rw [k1, g1, List.append_assoc]
      · simp only [runCycles, if_neg hcr]
        rw [k2, g2, List.append_assoc]
      · intro i hi
        rcases List.mem_append.mp hi with hit | hit
        · exact g3 i hit
        · intro hin
          exact k3 i hit (by rw [g1]; exact List.mem_append.mpr (Or.inl hin))

/-- C3: over any finite sequence of polling cycles (with arbitrary fetch
results per page and arbitrary delivery outcomes), an id already in the
seen set is never dispatched: the alert-attempt trace grows only by ids
that were not seen when the run began, so a seen id never reappears in
it.  Since `runCycles` composes cycle by cycle, this applies from any
point at which the id has been added. -/
theorem dedup_idempotent (deliver : PyVal → Bool) (maxPages : Nat)
    (cycles : List (Nat → List Raw)) (st : MainState) (i : PyVal)
    (h : i ∈ st.seen) :
    ∃ t, (runCycles deliver maxPages cycles st).dispatched = st.dispatched ++ t ∧
         i ∉ t := by
  obtain ⟨t, _, h2, h3⟩ := runCycles_spec deliver maxPages cycles st
  exact ⟨t, h2, fun hit => h3 i hit h⟩

/-- A concrete listing record with id "x". -/
def rawX : Raw := { emptyRaw with id := some (PyVal.str "x") }

/-- A started state that has already seen id "x". -/
def stSeenX : MainState :=
  { seen := [PyVal.str "x"], first_run := false, dispatched := [],
    sendLog := [], writes := [], crashed := false }

/-- C3 witness: one cycle whose every page returns the already-seen
record again; the run dispatches nothing containing "x". -/
theorem dedup_idempotent_witness :
    ∃ t, (runCycles (fun _ => true) 5 [fun _ => [rawX]] stSeenX).dispatched =
           stSeenX.dispatched ++ t ∧ PyVal.str "x" ∉ t :=
  dedup_idempotent (fun _ => true) 5 [fun _ => [rawX]] stSeenX (PyVal.str "x")
    (by simp [stSeenX])

/-- Loop states that agree on everything except the relay-call log. -/
def SameCore (a b : MainState) : Prop :=
  a.seen = b.seen ∧ a.first_run = b.first_run ∧ a.dispatched = b.dispatched ∧
  a.writes = b.writes ∧ a.crashed = b.crashed

lemma stepRaws_core (d1 d2 : PyVal → Bool) (l : List Raw) :
    ∀ (a b : MainState) (nf : Bool), SameCore a b →
    SameCore (stepRaws d1 a nf l).1 (stepRaws d2 b nf l).1 ∧
    (stepRaws d1 a nf l).2 = (stepRaws d2 b nf l).2 := by
  induction l with
  | nil =>
    intro a b nf h
    exact ⟨h, rfl⟩
  | cons r rs ih =>
    intro a b nf h
    obtain ⟨hs, hf, hd, hw, hc⟩ := h
    rcases hpe : parse_item r with e | item
    · simp only [stepRaws, hpe]
      exact ⟨⟨hs, hf, hd, hw, by trivial⟩, by trivial⟩
    · simp only [stepRaws, hpe]
      by_cases hcond : pyTruthy item.id = false ∨ item.id ∈ a.seen
      · rw [if_pos hcond, if_pos (by rw [← hs]; exact hcond)]
        exact ih a b nf ⟨hs, hf, hd, hw, hc⟩
      · rw [if_neg hcond, if_neg (by rw [← hs]; exact hcond)]
        exact ih _ _ true ⟨by simp [hs], hf, by simp [hd], hw, hc⟩

lemma scanFrom_core (d1 d2 : PyVal → Bool) (pages : Nat → List Raw) :
    ∀ (remaining page : Nat) (a b : MainState) (nf : Bool), SameCore a b →
    SameCore (scanFrom d1 pages remaining page a nf).1
             (scanFrom d2 pages remaining page b nf).1 ∧
    (scanFrom d1 pages remaining page a nf).2.1 =
      (scanFrom d2 pages remaining page b nf).2.1 ∧
    (scanFrom d1 pages remaining page a nf).2.2 =
      (scanFrom d2 pages remaining page b nf).2.2 := by
  intro remaining
  induction remaining with
  | zero =>
    intro page a b nf h
    exact ⟨h, rfl, rfl⟩
  | succ m ih =>
    intro page a b nf h
    by_cases hemp : pages page = []
    · simp only [scanFrom, if_pos hemp]
      exact ⟨h, by trivial, by trivial⟩
    · simp only [scanFrom, if_neg hemp]
      obtain ⟨hstep, hnf⟩ := stepRaws_core d1 d2 (pages page) a b nf h
      by_cases hcr : (stepRaws d1 a nf (pages page)).1.crashed
      · rw [if_pos hcr, if_pos (by rw [← hstep.2.2.2.2]; exact hcr)]
        exact ⟨hstep, hnf, rfl⟩
      · rw [if_neg hcr, if_neg (by rw [← hstep.2.2.2.2]; exact hcr)]
        rw [hnf]
        obtain ⟨hq1, hq2, hq3⟩ := ih (page + 1) (stepRaws d1 a nf (pages page)).1
          (stepRaws d2 b nf (pages page)).1 ((stepRaws d2 b nf (pages page)).2) hstep
        exact ⟨hq1, hq2, by rw [hq3]⟩

lemma runCycle_core (d1 d2 : PyVal → Bool) (maxPages : Nat) (pages : Nat → List Raw)
    (a b : MainState) (h : SameCore a b) :
    SameCore (runCycle d1 maxPages pages a).1 (runCycle d2 maxPages pages b).1 ∧
    (runCycle d1 maxPages pages a).2 = (runCycle d2 maxPages pages b).2 := by
  obtain ⟨hq, hnf, hfetched⟩ := scanFrom_core d1 d2 pages maxPages 0 a b false h
  obtain ⟨e1, e2, e3, e4, e5⟩ := hq
  simp only [runCycle]
  rw [← e1, ← e2, ← e3, ← e4, ← e5, ← hnf, ← hfetched]
  by_cases hcr : (scanFrom d1 pages maxPages 0 a false).1.crashed
  · simp only [if_pos hcr]
    refine ⟨⟨?_, ?_, ?_, ?_, ?_⟩, by trivial⟩ <;> simp [e1, e2, e3, e4, e5]
  · simp only [if_neg hcr]
    by_cases hsave : ((scanFrom d1 pages maxPages 0 a false).2.1 ||
        (scanFrom d1 pages maxPages 0 a false).1.first_run) = true
    · simp only [if_pos hsave]
      refine ⟨⟨?_, ?_, ?_, ?_, ?_⟩, by trivial⟩ <;> simp [e1, e2, e3, e4, e5]
    · simp only [if_neg hsave]
      refine ⟨⟨?_, ?_, ?_, ?_, ?_⟩, by trivial⟩ <;> simp [e1, e2, e3, e4, e5]

lemma runCycles_core (d1 d2 : PyVal → Bool) (maxPages : Nat) :
    ∀ (cycles : List (Nat → List Raw)) (a b : MainState), SameCore a b →
    SameCore (runCycles d1 maxPages cycles a) (runCycles d2 maxPages cycles b) := by
  intro cycles
  induction cycles with
  | nil =>
    intro a b h
    exact h
  | cons p ps ih =>
    intro a b h
    simp only [runCycles]
    by_cases hcr : a.crashed
    · rw [if_pos hcr, if_pos (by rw [← h.2.2.2.2]; exact hcr)]
      exact h
    · rw [if_neg hcr, if_neg (by rw [← h.2.2.2.2]; exact hcr)]
      exact ih _ _ (runCycle_core d1 d2 maxPages p a b h).1

/-- C4: over any run, the seen set and the alert-attempt trace are
extended by the same ids in the same order (an id enters the seen set
exactly when an alert for it was attempted), and the run's seen set,
attempt trace and persisted snapshots are identical under any two
delivery-outcome oracles: a relay failure leaves the dedup state exactly
as a success would. -/
theorem seen_tracks_attempts (d1 d2 : PyVal → Bool) (maxPages : Nat)
    (cycles : List (Nat → List Raw)) (st : MainState) :
    (∃ t, (runCycles d1 maxPages cycles st).seen = st.seen ++ t ∧
          (runCycles d1 maxPages cycles st).dispatched = st.dispatched ++ t) ∧
    (runCycles d1 maxPages cycles st).seen = (runCycles d2 maxPages cycles st).seen ∧
    (runCycles d1 maxPages cycles st).dispatched =
      (runCycles d2 maxPages cycles st).dispatched ∧
    (runCycles d1 maxPages cycles st).writes =
      (runCycles d2 maxPages cycles st).writes := by
  obtain ⟨t, h1, h2, _⟩ := runCycles_spec d1 maxPages cycles st
  have hcore := runCycles_core d1 d2 maxPages cycles st st ⟨rfl, rfl, rfl, rfl, rfl⟩
  exact ⟨⟨t, h1, h2⟩, hcore.1, hcore.2.2.1, hcore.2.2.2.1⟩

lemma stepRaws_no_crash (deliver : PyVal → Bool) (l : List Raw) :
    ∀ (st : MainState) (nf : Bool), st.crashed = false →
    (∀ r ∈ l, ∃ it, parse_item r = Except.ok it) →
    (stepRaws deliver st nf l).1.crashed = false := by
  induction l with
  | nil =>
    intro st nf hc _
    simpa [stepRaws] using hc
  | cons r rs ih =>
    intro st nf hc hok
    obtain ⟨it, hit⟩ := hok r (List.mem_cons_self r rs)
    simp only [stepRaws, hit]
    by_cases hcond : pyTruthy it.id = false ∨ it.id ∈ st.seen
    · rw [if_pos hcond]
      exact ih st nf hc (fun w hw => hok w (List.mem_cons_of_mem _ hw))
    · rw [if_neg hcond]
      exact ih _ true (by simpa using hc) (fun w hw => hok w (List.mem_cons_of_mem _ hw))

lemma scanFrom_step_empty (deliver : PyVal → Bool) (pages : Nat → List Raw)
    (m page : Nat) (st : MainState) (nf : Bool) (h : pages page = []) :
    scanFrom deliver pages (m + 1) page st nf = (st, nf, [page]) := by
  simp [scanFrom, h]

lemma scanFrom_step_go (deliver : PyVal → Bool) (pages : Nat → List Raw)
    (m page : Nat) (st : MainState) (nf : Bool) (h : pages page ≠ [])
    (hnc : (stepRaws deliver st nf (pages page)).1.crashed = false) :
    scanFrom deliver pages (m + 1) page st nf =
      ((scanFrom deliver pages m (page + 1) (stepRaws deliver st nf (pages page)).1
          (stepRaws deliver st nf (pages page)).2).1,
       (scanFrom deliver pages m (page + 1) (stepRaws deliver st nf (pages page)).1
          (stepRaws deliver st nf (pages page)).2).2.1,
       page :: (scanFrom deliver pages m (page + 1) (stepRaws deliver st nf (pages page)).1
          (stepRaws deliver st nf (pages page)).2).2.2) := by
  simp [scanFrom, h, hnc]

/-- C7: within one cycle the pages are fetched in order from 0 and the
scan stops at the first page whose fetch returns an empty sequence: when
page 0 has items (all of which parse) and page 1 comes back empty,
exactly pages 0 and 1 are fetched and page 2 never is. -/
theorem pagination_short_circuit (deliver : PyVal → Bool) (maxPages : Nat)
    (pages : Nat → List Raw) (st : MainState)
    (hmp : 3 ≤ maxPages) (hcr : st.crashed = false)
    (h0 : pages 0 ≠ []) (h1 : pages 1 = [])
    (hok : ∀ r ∈ pages 0, ∃ it, parse_item r = Except.ok it) :
    (runCycle deliver maxPages pages st).2 = [0, 1] ∧
    2 ∉ (runCycle deliver maxPages pages st).2 := by
  obtain ⟨k, hk⟩ : ∃ k, maxPages = k + 3 := ⟨maxPages - 3, by omega⟩
  subst hk
  have hnc : (stepRaws deliver st false (pages 0)).1.crashed = false :=
    stepRaws_no_crash deliver (pages 0) st false hcr hok
  have e1 : scanFrom deliver pages (k + 3) 0 st false =
      ((scanFrom deliver pages (k + 2) 1 (stepRaws deliver st false (pages 0)).1
          (stepRaws deliver st false (pages 0)).2).1,
       (scanFrom deliver pages (k + 2) 1 (stepRaws deliver st false (pages 0)).1
          (stepRaws deliver st false (pages 0)).2).2.1,
       0 :: (scanFrom deliver pages (k + 2) 1 (stepRaws deliver st false (pages 0)).1
          (stepRaws deliver st false (pages 0)).2).2.2) :=
    scanFrom_step_go deliver pages (k + 2) 0 st false h0 hnc
  have e2 : scanFrom deliver pages (k + 2) 1 (stepRaws deliver st false (pages 0)).1
      (stepRaws deliver st false (pages 0)).2 =
      ((stepRaws deliver st false (pages 0)).1, (stepRaws deliver st false (pages 0)).2,
       [1]) :=
    scanFrom_step_empty deliver pages (k + 1) 1 (stepRaws deliver st false (pages 0)).1
      (stepRaws deliver st false (pages 0)).2 h1
  obtain ⟨_, _, _, p4⟩ := runCycle_proj deliver (k + 3) pages st
  have hmain : (runCycle deliver (k + 3) pages st).2 = [0, 1] := by
    rw [p4, e1, e2]
  exact ⟨hmain, by rw [hmain]; decide⟩

/-- A per-cycle fetch oracle: one record on page 0, nothing afterwards. -/
def pagesOneThenEmpty : Nat → List Raw := fun i => if i = 0 then [rawX] else []

/-- C7 witness: with one listing on page 0 and page 1 empty, the cycle
fetches exactly pages 0 and 1. -/
theorem pagination_short_circuit_witness :
    (runCycle (fun _ => true) 5 pagesOneThenEmpty stSeenX).2 = [0, 1] ∧
    2 ∉ (runCycle (fun _ => true) 5 pagesOneThenEmpty stSeenX).2 :=
  pagination_short_circuit (fun _ => true) 5 pagesOneThenEmpty stSeenX
    (by decide) rfl (by simp [pagesOneThenEmpty]) rfl
    (by
      intro r hr
      simp [pagesOneThenEmpty] at hr
      subst hr
      exact ⟨_, rfl⟩)

lemma append_eq_self_iff (l t : List PyVal) : l ++ t = l ↔ t = [] := by
  constructor
  · intro h
    have hlen := congrArg List.length h
    rw [List.length_append] at hlen
    have ht : t.length = 0 := by omega
    exact List.length_eq_zero.mp ht
  · intro h
    rw [h, List.append_nil]

lemma runCycle_eq_save (deliver : PyVal → Bool) (maxPages : Nat)
    (pages : Nat → List Raw) (st : MainState)
    (hcr : (scanFrom deliver pages maxPages 0 st false).1.crashed = false)
    (hC : ((scanFrom deliver pages maxPages 0 st false).2.1 ||
           (scanFrom deliver pages maxPages 0 st false).1.first_run) = true) :
    (runCycle deliver maxPages pages st).1 =
      { (scanFrom deliver pages maxPages 0 st false).1 with
        writes := (scanFrom deliver pages maxPages 0 st false).1.writes ++
                  [(scanFrom deliver pages maxPages 0 st false).1.seen],
        first_run := false } := by
  simp [runCycle, hcr, hC]

lemma runCycle_eq_nosave (deliver : PyVal → Bool) (maxPages : Nat)
    (pages : Nat → List Raw) (st : MainState)
    (hcr : (scanFrom deliver pages maxPages 0 st false).1.crashed = false)
    (hC : ((scanFrom deliver pages maxPages 0 st false).2.1 ||
           (scanFrom deliver pages maxPages 0 st false).1.first_run) = false) :
    (runCycle deliver maxPages pages st).1 =
      (scanFrom deliver pages maxPages 0 st false).1 := by
  simp [runCycle, hcr, hC]

/-- C8: at the end of a non-crashing cycle the store is written exactly
when the cycle added new ids (the seen set grew) or the run's `first_run`
flag is still set — `load_seen_ids` sets that flag exactly when no store
file existed; and a run from a missing store whose two cycles both find
nothing writes the (empty) store once in the first cycle and does not
rewrite it in the second. -/
theorem first_run_persistence (deliver : PyVal → Bool) (maxPages : Nat)
    (pages : Nat → List Raw) (st : MainState)
    (hcr1 : st.crashed = false)
    (hcr2 : (runCycle deliver maxPages pages st).1.crashed = false) :
    ((st.first_run = true ∨ (runCycle deliver maxPages pages st).1.seen ≠ st.seen) →
      (runCycle deliver maxPages pages st).1.writes =
        st.writes ++ [(runCycle deliver maxPages pages st).1.seen]) ∧
    ((st.first_run = false ∧ (runCycle deliver maxPages pages st).1.seen = st.seen) →
      (runCycle deliver maxPages pages st).1.writes = st.writes) ∧
    (runCycles deliver maxPages [fun _ => [], fun _ => []]
      (initState Option.none)).writes = [([] : List PyVal)] := by
  obtain ⟨t, s1, s2, s3, s4, s5, s6⟩ := scanFrom_spec deliver pages maxPages 0 st false
  obtain ⟨q1, q2, q3, q4⟩ := runCycle_proj deliver maxPages pages st
  have hrc : (scanFrom deliver pages maxPages 0 st false).1.crashed = false := by
    rw [← q3]; exact hcr2
  have hbridge : (((scanFrom deliver pages maxPages 0 st false).2.1 ||
      (scanFrom deliver pages maxPages 0 st false).1.first_run) = true) ↔
      (st.first_run = true ∨ st.seen ++ t ≠ st.seen) := by
    rw [s4, s5]
    cases hfr : st.first_run <;> cases t <;> simp [append_eq_self_iff]
  refine ⟨?_, ?_, ?_⟩
  · intro hcond
    rw [q1, s1] at hcond
    have hC := hbridge.mpr hcond
    rw [runCycle_eq_save deliver maxPages pages st hrc hC]
    simp [s6]
  · rintro ⟨hf, hs⟩
    cases hBo : ((scanFrom deliver pages maxPages 0 st false).2.1 ||
        (scanFrom deliver pages maxPages 0 st false).1.first_run) with
    | false =>
      rw [runCycle_eq_nosave deliver maxPages pages st hrc hBo]
      exact s6
    | true =>
      exfalso
      rcases hbridge.mp hBo with h | h
      · rw [hf] at h
        exact Bool.false_ne_true h
      · apply h
        rw [← s1, ← q1]
        exact hs
  · cases maxPages with
    | zero => rfl
    | succ m => rfl

/-- C8 witness: from a missing store, a first cycle with no listings
still writes the store once. -/
theorem first_run_persistence_witness :
    (runCycle (fun _ => true) 5 (fun _ => []) (initState Option.none)).1.writes =
      (initState Option.none).writes ++
        [(runCycle (fun _ => true) 5 (fun _ => []) (initState Option.none)).1.seen] :=
  (first_run_persistence (fun _ => true) 5 (fun _ => []) (initState Option.none)
    rfl rfl).1 (Or.inl rfl)

/-- C8 counterexample: a store file that exists and deserializes to the
empty set starts the run with `firstRun = false`, so a first cycle that
finds zero new ids does not write the store at all — the claim's "run
that started with an empty/missing store" writes on the first cycle only
in the missing-file case. -/
theorem empty_store_first_cycle_no_write :
    load_seen_ids (some (FileContents.pickled [])) = ([], false) ∧
    (runCycles (fun _ => true) 5 [fun _ => []]
      (initState (some (FileContents.pickled [])))).writes = [] :=
  ⟨rfl, rfl⟩
